import Mathlib

/-!
Shallow embedding of the onramp repository (a file-based-routing web framework
scaffold) and proofs about its specified behaviour.

Embedded components:
* `src/onramp/db/models.py` — `OnRampModelMeta._pluralize` (table-name pluralizer)
* `src/onramp/app.py` — route-path derivation, handler-arity dispatch,
  response conversion, the unified per-route handler and route-file loading
* `src/onramp/cli.py` — CLI command dispatch and the uvicorn watch/restart loop
* `src/onramp/db/manager.py` / `migrations.py` — singleton manager getters

Python strings are modelled as Lean `String` (or `List Char` where character
level reasoning is needed); machine-level details (dynamic import, the event
loop, subprocesses) are modelled as explicit data describing what the code
does with their results.
-/

namespace Onramp

/-! ## String primitives

Lean's built-in `String.endsWith`/`toLower`/… do not reduce well inside the
kernel, so the Python string operations used by the repository are embedded
directly over the character list of a `String`. -/

/-- Python `str.lower()` (character-wise lowercasing). -/
def lowerStr (s : String) : String := String.mk (s.data.map Char.toLower)

/-- Python `s.endswith(suf)`. -/
def endsWithStr (s suf : String) : Bool := suf.data.isSuffixOf s.data

/-- Python `s.startswith(pre)`. -/
def startsWithStr (s pre : String) : Bool := pre.data.isPrefixOf s.data

/-- Python `c in s` for a single character `c`. -/
def containsChar (s : String) (c : Char) : Bool := s.data.contains c

/-- Python `s.strip()`: remove leading and trailing whitespace. -/
def trimStr (s : String) : String :=
  String.mk (((s.data.dropWhile Char.isWhitespace).reverse.dropWhile
    Char.isWhitespace).reverse)

/-- Substring occurrence over character lists (Python `pat in s`). -/
def isInfixL (pat : List Char) : List Char → Bool
  | [] => pat.isEmpty
  | c :: rest => pat.isPrefixOf (c :: rest) || isInfixL pat rest

/-- Python `pat in s` for strings. -/
def isInfixStr (pat s : String) : Bool := isInfixL pat.data s.data

/-! ## Pluralizer (`OnRampModelMeta._pluralize`, db/models.py lines 34-73) -/

/-- The irregular-word table from `_pluralize`. -/
def irregular : List (String × String) :=
  [("person", "people"), ("child", "children"), ("mouse", "mice"),
   ("foot", "feet"), ("tooth", "teeth"), ("goose", "geese"),
   ("man", "men"), ("woman", "women")]

/-- Python `word[:-n]`: drop the last `n` characters. -/
def dropRight (s : String) (n : Nat) : String :=
  String.mk (s.data.take (s.data.length - n))

/-- Python `word[-2]`: the second-to-last character.  Only used under a
`len(word) > 1` guard in the source, so the default is never reached there. -/
def penult (s : String) : Char :=
  s.data.getD (s.data.length - 2) 'a'

/-- Condition of the first suffix rule: `word.endswith(('s','ss','sh','ch','x','z'))`.
A Python tuple argument to `endswith` means "ends with any of these". -/
def sFamEnding (word : String) : Bool :=
  endsWithStr word "s" || endsWithStr word "ss" || endsWithStr word "sh" ||
  endsWithStr word "ch" || endsWithStr word "x" || endsWithStr word "z"

/-- Condition of the consonant+y rule:
`word.endswith('y') and len(word) > 1 and word[-2] not in 'aeiou'`. -/
def consonantY (word : String) : Bool :=
  endsWithStr word "y" && decide (1 < word.data.length) && !(containsChar "aeiou" (penult word))

/-- Condition of the consonant+o rule:
`word.endswith('o') and len(word) > 1 and word[-2] not in 'aeiou'`. -/
def consonantO (word : String) : Bool :=
  endsWithStr word "o" && decide (1 < word.data.length) && !(containsChar "aeiou" (penult word))

/-- `OnRampModelMeta._pluralize`, translated clause by clause from
db/models.py lines 34-73. -/
def pluralize (w : String) : String :=
  let word := lowerStr w
  match irregular.lookup word with
  | some p => p
  | none =>
    if sFamEnding word then word ++ "es"
    else if consonantY word then dropRight word 1 ++ "ies"
    else if endsWithStr word "f" then dropRight word 1 ++ "ves"
    else if endsWithStr word "fe" then dropRight word 2 ++ "ves"
    else if consonantO word then word ++ "es"
    else word ++ "s"

end Onramp

namespace Onramp

/-- C4: every word of the irregular table pluralizes to its mapped form, and
"bus", "city", "leaf", "hero", "cat" pluralize to "buses", "cities",
"leaves", "heroes", "cats". -/
theorem pluralize_irregular_and_examples :
    pluralize "person" = "people" ∧ pluralize "child" = "children" ∧
    pluralize "mouse" = "mice" ∧ pluralize "foot" = "feet" ∧
    pluralize "tooth" = "teeth" ∧ pluralize "goose" = "geese" ∧
    pluralize "man" = "men" ∧ pluralize "woman" = "women" ∧
    pluralize "bus" = "buses" ∧ pluralize "city" = "cities" ∧
    pluralize "leaf" = "leaves" ∧ pluralize "hero" = "heroes" ∧
    pluralize "cat" = "cats" := by
  decide

/-- C5 counterexample: the claimed rule "a word ending in 'f' maps f → fe"
fails on "leaf" (lowercase, not irregular): the code yields "leaves",
not "leafe". -/
theorem pluralize_f_rule_counterexample :
    pluralize "leaf" = "leaves" ∧ pluralize "leaf" ≠ "leafe" := by
  decide

/-- C5 (amended): for a lowercase word not in the irregular table the ordered
suffix rules are: s/ss/sh/ch/x/z adds "es"; consonant+y turns "y" into "ies";
a word ending in "f" drops the "f" and adds "ves" (and otherwise one ending
in "fe" drops the "fe" and adds "ves"); consonant+o adds "es"; every other
word adds "s". -/
theorem pluralize_suffix_rules (w : String)
    (hlow : lowerStr w = w) (hirr : irregular.lookup w = none) :
    (sFamEnding w = true → pluralize w = w ++ "es") ∧
    (sFamEnding w = false → consonantY w = true →
      pluralize w = dropRight w 1 ++ "ies") ∧
    (sFamEnding w = false → consonantY w = false → endsWithStr w "f" = true →
      pluralize w = dropRight w 1 ++ "ves") ∧
    (sFamEnding w = false → consonantY w = false → endsWithStr w "f" = false →
      endsWithStr w "fe" = true → pluralize w = dropRight w 2 ++ "ves") ∧
    (sFamEnding w = false → consonantY w = false → endsWithStr w "f" = false →
      endsWithStr w "fe" = false → consonantO w = true →
      pluralize w = w ++ "es") ∧
    (sFamEnding w = false → consonantY w = false → endsWithStr w "f" = false →
      endsWithStr w "fe" = false → consonantO w = false →
      pluralize w = w ++ "s") := by
  refine ⟨?_, ?_, ?_, ?_, ?_, ?_⟩ <;> intros <;>
    simp only [pluralize, hlow, hirr] <;> simp_all

/-- Witness for `pluralize_suffix_rules` at the concrete input "cat". -/
theorem pluralize_suffix_rules_witness : pluralize "cat" = "cat" ++ "s" :=
  (pluralize_suffix_rules "cat" (by decide) (by decide)).2.2.2.2.2
    (by decide) (by decide) (by decide) (by decide) (by decide)

/-! ## Route path derivation (`OnRamp._load_route_file`, app.py lines 199-209) -/

/-- Python `s.replace(a, b)` for one-character `a` and `b`, over char lists
(replacing a single character is a character-wise map). -/
def replaceChar (a b : Char) (s : List Char) : List Char :=
  s.map (fun c => if c = a then b else c)

/-- Eligibility filter of `discover_file_routes` (app.py line 81):
`filename.endswith('.py') and not filename.startswith('__')`. -/
def isEligibleFile (filename : String) : Bool :=
  endsWithStr filename ".py" && !(startsWithStr filename "__")

/-- `module_name = filename[:-3]` (app.py line 173), over char lists. -/
def moduleNameOf (filename : String) : List Char :=
  filename.data.take (filename.data.length - 3)

/-- Route-path derivation from the module name, app.py lines 199-209:
`index` maps to `/api`, any other name to `/api/<name>`; when the name
contains both `[` and `]`, every `[` becomes `{` and every `]` becomes `}`
and the result is prefixed with `/api/`. -/
def route_path (module_name : List Char) : List Char :=
  let base := if module_name = "index".data then "/api".data
              else "/api/".data ++ module_name
  if '[' ∈ module_name ∧ ']' ∈ module_name then
    "/api/".data ++ replaceChar ']' '}' (replaceChar '[' '{' module_name)
  else base

/-- `replaceChar` leaves a list without the replaced character unchanged. -/
theorem replaceChar_not_mem (a b : Char) (l : List Char) (h : a ∉ l) :
    replaceChar a b l = l := by
  induction l with
  | nil => rfl
  | cons c cs ih =>
    simp only [List.mem_cons, not_or] at h
    simp only [replaceChar, List.map_cons] at *
    rw [if_neg (fun hc => h.1 hc.symm), ih h.2]

end Onramp

namespace Onramp

/-- C1: for a module name without brackets the derived path is
`/api/<name>`, except that `index` maps to `/api`; for a name consisting of
a single `[param]` segment (with bracket-free surroundings) the derived path
is `/api/<name>` with `[param]` replaced by `\x7bparam\x7d`. -/
theorem route_path_spec :
    (∀ m : List Char, '[' ∉ m → ']' ∉ m →
      route_path m =
        (if m = "index".data then "/api".data else "/api/".data ++ m)) ∧
    (∀ pre param rest : List Char,
      '[' ∉ pre → ']' ∉ pre → '[' ∉ param → ']' ∉ param →
      '[' ∉ rest → ']' ∉ rest →
      route_path (pre ++ '[' :: param ++ ']' :: rest) =
        "/api/".data ++ pre ++ '{' :: param ++ '}' :: rest) := by
  constructor
  · intro m h1 h2
    simp only [route_path]
    rw [if_neg (fun hc => h1 hc.1)]
  · intro pre param rest hp1 hp2 hq1 hq2 hr1 hr2
    have hcond : '[' ∈ pre ++ '[' :: param ++ ']' :: rest ∧
        ']' ∈ pre ++ '[' :: param ++ ']' :: rest := by
      constructor <;> simp
    simp only [route_path]
    rw [if_pos hcond]
    have e1 : replaceChar '[' '{' (pre ++ '[' :: param ++ ']' :: rest) =
        pre ++ '{' :: param ++ ']' :: rest := by
      simp only [replaceChar, List.map_append, List.map_cons]
      rw [← replaceChar, ← replaceChar, ← replaceChar,
        replaceChar_not_mem _ _ _ hp1, replaceChar_not_mem _ _ _ hq1,
        replaceChar_not_mem _ _ _ hr1]
      norm_num
      all_goals decide
    have e2 : replaceChar ']' '}' (pre ++ '{' :: param ++ ']' :: rest) =
        pre ++ '{' :: param ++ '}' :: rest := by
      simp only [replaceChar, List.map_append, List.map_cons]
      rw [← replaceChar, ← replaceChar, ← replaceChar,
        replaceChar_not_mem _ _ _ hp2, replaceChar_not_mem _ _ _ hq2,
        replaceChar_not_mem _ _ _ hr2]
      norm_num
      all_goals decide
    rw [e1, e2]
    simp [List.append_assoc]

/-! ## Handler adapter (`OnRamp._make_async_handler`, app.py lines 113-169) -/

/-- How a discovered verb function is classified by `_make_async_handler`:
carrying the `_onramp_sync` marker, natively `async def`, or a plain `def`
(auto-wrapped async). -/
inductive HandlerKind where
  | explicitSync
  | nativeAsync
  | plain
deriving DecidableEq

/-- Where the adapter executes the original function: on the worker thread
pool (`loop.run_in_executor(None, …)`) or awaited directly on the event
loop. -/
inductive Venue where
  | threadPool
  | eventLoop
deriving DecidableEq

/-- The argument list the adapter passes to the original function. -/
inductive Invocation (Req Par : Type) where
  | noArgs
  | withRequest (r : Req)
  | withRequestParams (r : Req) (p : Par)
deriving DecidableEq

/-- `OnRamp._make_async_handler` (app.py lines 113-169): given the handler's
classification and declared parameter count (`len(sig.parameters)`), the
generated wrapper, applied to a request and the path-params dict, executes
the original function on the stated venue with the stated arguments.  Each
of the three wrapper variants repeats the same `param_count` dispatch. -/
def make_async_handler (Req Par : Type) (kind : HandlerKind)
    (param_count : Nat) (request : Req) (params : Par) :
    Venue × Invocation Req Par :=
  match kind with
  | .explicitSync =>
    (.threadPool,
      if param_count = 0 then .noArgs
      else if param_count = 1 then .withRequest request
      else .withRequestParams request params)
  | .nativeAsync =>
    (.eventLoop,
      if param_count = 0 then .noArgs
      else if param_count = 1 then .withRequest request
      else .withRequestParams request params)
  | .plain =>
    (.threadPool,
      if param_count = 0 then .noArgs
      else if param_count = 1 then .withRequest request
      else .withRequestParams request params)

/-- C2: whatever the handler's classification (explicitly-sync, natively
async, or plain), the adapter calls it with no arguments when it declares 0
parameters, with only the request when it declares 1, and with the request
plus the path-parameters dict when it declares 2 or more. -/
theorem make_async_handler_arity (Req Par : Type) (kind : HandlerKind)
    (pc : Nat) (r : Req) (p : Par) :
    (pc = 0 → (make_async_handler Req Par kind pc r p).2 = .noArgs) ∧
    (pc = 1 → (make_async_handler Req Par kind pc r p).2 = .withRequest r) ∧
    (2 ≤ pc →
      (make_async_handler Req Par kind pc r p).2 = .withRequestParams r p) := by
  refine ⟨?_, ?_, ?_⟩ <;> intro h
  · cases kind <;> simp [make_async_handler, h]
  · cases kind <;> simp [make_async_handler, h]
  · have h0 : pc ≠ 0 := by omega
    have h1 : pc ≠ 1 := by omega
    cases kind <;> simp [make_async_handler, h0, h1]

/-- Witness for `make_async_handler_arity`: concrete invocations for each
arity at concrete requests/params. -/
theorem make_async_handler_arity_witness :
    (make_async_handler Nat Nat .explicitSync 0 7 9).2 = .noArgs ∧
    (make_async_handler Nat Nat .nativeAsync 1 7 9).2 = .withRequest 7 ∧
    (make_async_handler Nat Nat .plain 2 7 9).2 = .withRequestParams 7 9 :=
  ⟨(make_async_handler_arity Nat Nat .explicitSync 0 7 9).1 rfl,
   (make_async_handler_arity Nat Nat .nativeAsync 1 7 9).2.1 rfl,
   (make_async_handler_arity Nat Nat .plain 2 7 9).2.2 (by omega)⟩

/-! ## Response conversion (`OnRamp._convert_response`, app.py lines 84-111) -/

/-- A Python value as classified by `_convert_response`'s `isinstance`
chain.  Only `respLike` values have a `status_code` attribute, so the
`hasattr` test at the top of the chain singles them out.  Dict entries and
list/tuple elements are carried but never inspected by the conversion. -/
inductive PyVal where
  | respLike (status : Nat)
  | dict (entries : List (String × PyVal))
  | str (s : String)
  | list (elems : List PyVal)
  | tuple (elems : List PyVal)
  | int (n : Int)
  | float (tok : String)
  | bool (b : Bool)
  | pyNone
  | other (strRepr : String)

/-- A Starlette response as produced by `_convert_response` and
`unified_handler`: a response object passed through unchanged, a
`JSONResponse` with its body and status code, an `HTMLResponse`, or a
`PlainTextResponse`. -/
inductive HttpResponse where
  | passthrough (v : PyVal)
  | json (body : PyVal) (status : Nat)
  | html (body : String)
  | plain (body : String)

/-- `OnRamp._convert_response` (app.py lines 84-111), clause by clause.
`JSONResponse(x)` carries Starlette's default status code 200. -/
def convert_response : PyVal → HttpResponse
  | .respLike s => .passthrough (.respLike s)
  | .dict d => .json (.dict d) 200
  | .str s =>
    if startsWithStr (trimStr s) "<" && endsWithStr (trimStr s) ">"
    then .html s else .plain s
  | .list xs => .json (.list xs) 200
  | .tuple xs => .json (.tuple xs) 200
  | .int n => .json (.int n) 200
  | .float t => .json (.float t) 200
  | .bool b => .json (.bool b) 200
  | .pyNone => .plain ""
  | .other r => .plain r

/-- C3: response conversion passes response-like values through, returns
JSON (with matching body) for dicts, lists, tuples, ints, floats and bools,
HTML for a string whose stripped form starts with `<` and ends with `>` and
plain text otherwise (so "<p>hi</p>" is HTML and "hi" is plain text), an
empty plain-text response for None, and the stringified value otherwise. -/
theorem convert_response_spec :
    (∀ s, convert_response (.respLike s) = .passthrough (.respLike s)) ∧
    (∀ d, convert_response (.dict d) = .json (.dict d) 200) ∧
    (∀ s, convert_response (.str s) =
      if startsWithStr (trimStr s) "<" && endsWithStr (trimStr s) ">"
      then .html s else .plain s) ∧
    convert_response (.str "<p>hi</p>") = .html "<p>hi</p>" ∧
    convert_response (.str "hi") = .plain "hi" ∧
    (∀ xs, convert_response (.list xs) = .json (.list xs) 200) ∧
    (∀ xs, convert_response (.tuple xs) = .json (.tuple xs) 200) ∧
    (∀ n, convert_response (.int n) = .json (.int n) 200) ∧
    (∀ t, convert_response (.float t) = .json (.float t) 200) ∧
    (∀ b, convert_response (.bool b) = .json (.bool b) 200) ∧
    convert_response .pyNone = .plain "" ∧
    (∀ r, convert_response (.other r) = .plain r) := by
  refine ⟨?_, ?_, ?_, ?_, ?_, ?_, ?_, ?_, ?_, ?_, ?_, ?_⟩ <;> intros <;> rfl

/-! ## Unified per-route handler (`unified_handler`, app.py lines 224-242) -/

/-- The parts of a Starlette request that `unified_handler` reads: the HTTP
method and the matched path parameters. -/
structure Request where
  method : String
  path_params : List (String × String)

/-- `unified_handler` (app.py lines 226-240): look the request method up in
the per-route handler dict; on a hit call the wrapped handler with the
request and the path parameters (Python's `x if x else \x7b\x7d` on a dict is
the identity up to the empty dict), otherwise return
`JSONResponse(\x7b"error": f"Method \x7bmethod\x7d not allowed"\x7d, status_code=405)`. -/
def unified_handler
    (handlers : List (String × (Request → List (String × String) → HttpResponse)))
    (request : Request) : HttpResponse :=
  match handlers.lookup request.method with
  | some handler =>
    let params := if request.path_params.isEmpty then [] else request.path_params
    handler request params
  | none =>
    .json (.dict [("error", .str ("Method " ++ request.method ++ " not allowed"))])
      405

/-- C6: a request whose method has no registered handler on the matched
route gets a status-405 response whose body is a JSON object with an
"error" key. -/
theorem unified_handler_405
    (handlers : List (String × (Request → List (String × String) → HttpResponse)))
    (request : Request)
    (h : handlers.lookup request.method = none) :
    unified_handler handlers request =
      .json (.dict [("error",
        .str ("Method " ++ request.method ++ " not allowed"))]) 405 ∧
    ∃ msg, unified_handler handlers request = .json (.dict [("error", msg)]) 405 := by
  constructor
  · simp only [unified_handler, h]
  · exact ⟨.str ("Method " ++ request.method ++ " not allowed"),
      by simp only [unified_handler, h]⟩

/-- Witness for `unified_handler_405`: a GET request against a route with no
handlers at all. -/
theorem unified_handler_405_witness :
    unified_handler [] ⟨"GET", []⟩ =
      .json (.dict [("error", .str "Method GET not allowed")]) 405 :=
  (unified_handler_405 [] ⟨"GET", []⟩ rfl).1

/-! ## Route-file loading (`OnRamp._load_route_file` / `discover_file_routes`,
app.py lines 67-82 and 171-263) -/

/-- What happens when a route file's module is executed: the import raises,
or the module loads and exposes some set of callable lowercase verb
attributes. -/
inductive FileOutcome where
  | importError (msg : String)
  | loaded (verbs : List String)

/-- The observable console output of route loading: a "Registered route"
line, the "no HTTP method handlers" warning, or the "Error loading route"
message (followed by `traceback.print_exc()`). -/
inductive LogEntry where
  | registered (path : List Char) (filename : String)
  | noHandlersWarning (filename : String)
  | loadError (filename : String) (msg : String) (withTraceback : Bool)
deriving DecidableEq

/-- A registered Starlette `Route`: path pattern plus allowed methods. -/
structure RouteEntry where
  path : List Char
  methods : List String
deriving DecidableEq

/-- The uppercase verb list scanned by `_load_route_file` (app.py line 215). -/
def verbNames : List String :=
  ["GET", "POST", "PUT", "DELETE", "PATCH", "HEAD", "OPTIONS"]

/-- The `supported_methods` accumulated by the scan loop: the verbs, in scan
order, whose lowercase name the module exposes as a callable. -/
def supportedMethodsOf (verbs : List String) : List String :=
  verbNames.filter (fun m => verbs.contains (lowerStr m))

/-- `OnRamp._load_route_file` (app.py lines 171-263): on import failure log
the error (with traceback) and register nothing; with no verb handlers log
the warning and register nothing; otherwise register one route at the
derived path with the supported methods. -/
def load_route_file (filename : String) (outcome : FileOutcome) :
    Option RouteEntry × List LogEntry :=
  let module_name := moduleNameOf filename
  match outcome with
  | .importError msg => (none, [.loadError filename msg true])
  | .loaded verbs =>
    let methods := supportedMethodsOf verbs
    if methods.isEmpty then (none, [.noHandlersWarning filename])
    else (some ⟨route_path module_name, methods⟩,
          [.registered (route_path module_name) filename])

/-- `OnRamp.discover_file_routes` (app.py lines 67-82): process every
eligible `.py` file in the api directory in order, accumulating routes and
console output.  No outcome aborts the loop. -/
def discover_file_routes :
    List (String × FileOutcome) → List RouteEntry × List LogEntry
  | [] => ([], [])
  | (filename, outcome) :: rest =>
    let tail := discover_file_routes rest
    if isEligibleFile filename then
      let r := load_route_file filename outcome
      (r.1.toList ++ tail.1, r.2 ++ tail.2)
    else tail

/-- Discovery distributes over concatenation of the file list. -/
theorem discover_file_routes_append (xs ys : List (String × FileOutcome)) :
    discover_file_routes (xs ++ ys) =
      ((discover_file_routes xs).1 ++ (discover_file_routes ys).1,
       (discover_file_routes xs).2 ++ (discover_file_routes ys).2) := by
  induction xs with
  | nil => simp [discover_file_routes]
  | cons hd tl ih =>
    obtain ⟨f, o⟩ := hd
    by_cases hf : isEligibleFile f = true <;>
      simp [discover_file_routes, hf, ih, List.append_assoc]

/-- C7: an eligible route file whose import raises is logged (with
traceback) and skipped — the routes are exactly those of the remaining
files, so startup is not aborted; an eligible file that loads but exposes
no recognized verb logs the warning and also contributes no route. -/
theorem load_route_file_error_handling
    (pre post : List (String × FileOutcome)) (f msg : String)
    (verbs : List String) (helig : isEligibleFile f = true) :
    ((discover_file_routes (pre ++ [(f, .importError msg)] ++ post)).1 =
       (discover_file_routes (pre ++ post)).1 ∧
     LogEntry.loadError f msg true ∈
       (discover_file_routes (pre ++ [(f, .importError msg)] ++ post)).2) ∧
    (supportedMethodsOf verbs = [] →
      (discover_file_routes (pre ++ [(f, .loaded verbs)] ++ post)).1 =
        (discover_file_routes (pre ++ post)).1 ∧
      LogEntry.noHandlersWarning f ∈
        (discover_file_routes (pre ++ [(f, .loaded verbs)] ++ post)).2) := by
  constructor
  · constructor
    · simp [discover_file_routes_append, discover_file_routes, load_route_file,
        helig]
    · simp [discover_file_routes_append, discover_file_routes, load_route_file,
        helig]
  · intro hverbs
    constructor
    · simp [discover_file_routes_append, discover_file_routes, load_route_file,
        helig, hverbs]
    · simp [discover_file_routes_append, discover_file_routes, load_route_file,
        helig, hverbs]

/-- Witness for `load_route_file_error_handling`: one healthy file, one
file whose import raises, one file with no verb handlers. -/
theorem load_route_file_error_handling_witness :
    (discover_file_routes [("users.py", .loaded ["get"]),
        ("bad.py", .importError "boom"), ("huh.py", .loaded ["frobnicate"])]).1 =
      (discover_file_routes [("users.py", .loaded ["get"]),
        ("huh.py", .loaded ["frobnicate"])]).1 ∧
    LogEntry.loadError "bad.py" "boom" true ∈
      (discover_file_routes [("users.py", .loaded ["get"]),
        ("bad.py", .importError "boom"), ("huh.py", .loaded ["frobnicate"])]).2 :=
  (load_route_file_error_handling [("users.py", .loaded ["get"])]
    [("huh.py", .loaded ["frobnicate"])] "bad.py" "boom" [] (by decide)).1

/-- Witness for `route_path_spec` at the concrete module names "index",
"users" and "[id]". -/
theorem route_path_spec_witness :
    route_path "index".data = "/api".data ∧
    route_path "users".data = "/api/users".data ∧
    route_path "[id]".data = "/api/".data ++ '{' :: "id".data ++ ['}'] := by
  refine ⟨?_, ?_, ?_⟩
  · rw [route_path_spec.1 "index".data (by decide) (by decide)]; decide
  · rw [route_path_spec.1 "users".data (by decide) (by decide)]; decide
  · have h := route_path_spec.2 [] "id".data []
      (by decide) (by decide) (by decide) (by decide) (by decide) (by decide)
    simpa using h

/-! ## CLI dispatch (`main`, cli.py lines 1143-1213) -/

/-- The branch of `main`'s `elif` chain a command string reaches; `invalid`
is the final `else` branch that prints the list of available commands. -/
inductive CliAction where
  | newApp
  | runDev
  | ios
  | android
  | web
  | prepmigrations
  | migrate
  | invalid
deriving DecidableEq

/-- The `args.command` dispatch of `main` (cli.py lines 1160-1198),
branch by branch. -/
def cli_dispatch (command : String) : CliAction :=
  if command = "new" then .newApp
  else if command = "run" then .runDev
  else if command = "ios" then .ios
  else if command = "android" then .android
  else if command = "web" then .web
  else if command = "prepmigrations" then .prepmigrations
  else if command = "migrate" then .migrate
  else .invalid

/-- C8 counterexample: "repair:ios" matches no branch of `main`'s dispatch
and lands in the invalid-command branch, so it does not start any iOS-repair
workflow. -/
theorem cli_repair_ios_counterexample :
    cli_dispatch "repair:ios" = CliAction.invalid := by decide

/-- C8 (amended): the CLI's recognized subcommands are exactly new, run,
ios, android, web, prepmigrations and migrate; "repair:ios" is not among
them and is handled as an invalid/unknown command. -/
theorem cli_dispatch_table :
    cli_dispatch "new" = .newApp ∧ cli_dispatch "run" = .runDev ∧
    cli_dispatch "ios" = .ios ∧ cli_dispatch "android" = .android ∧
    cli_dispatch "web" = .web ∧
    cli_dispatch "prepmigrations" = .prepmigrations ∧
    cli_dispatch "migrate" = .migrate ∧
    cli_dispatch "repair:ios" = .invalid := by decide

/-! ## Watch/restart loop (`run_uvicorn_with_watch`, cli.py lines 921-999) -/

/-- The ignore list of `run_uvicorn_with_watch` (cli.py lines 926-938). -/
def ignore_patterns : List String :=
  [".sqlite3-shm", ".sqlite3-wal", ".sqlite3-journal", ".pyc", ".pyo",
   "__pycache__", ".DS_Store", "Thumbs.db", ".tmp", ".log"]

/-- `should_ignore_change` (cli.py lines 939-942): any ignore pattern
occurring as a substring of the changed path. -/
def should_ignore_change (file_path : String) : Bool :=
  ignore_patterns.any (fun pattern => isInfixStr pattern file_path)

/-- The process-level operations performed inside the watch loop. -/
inductive WatchAction where
  | terminate
  | waitTimeout (seconds : Nat)
  | kill
  | spawnWorker
deriving DecidableEq

/-- The `filtered_changes` list comprehension of the loop body: a watchfiles
change is a (kind, path) pair and `change[1]` is the path. -/
def filtered_changes (changes : List (Nat × String)) : List (Nat × String) :=
  changes.filter (fun change => !should_ignore_change change.2)

/-- The stop sequence of the loop body (cli.py lines 973-981): if the worker
process exists and is still running, terminate it, wait up to 3 seconds, and
kill it if the wait timed out; otherwise do nothing. -/
def stop_worker (workerRunning waitTimedOut : Bool) : List WatchAction :=
  if workerRunning then
    [.terminate, .waitTimeout 3] ++ (if waitTimedOut then [.kill] else [])
  else []

/-- One iteration of the `for changes in watch(APP_DIR)` loop (cli.py lines
961-983): if every change is ignored, `continue`; otherwise stop the
current worker and spawn exactly one replacement. -/
def watch_iteration (workerRunning waitTimedOut : Bool)
    (changes : List (Nat × String)) : List WatchAction :=
  if (filtered_changes changes).isEmpty then []
  else stop_worker workerRunning waitTimedOut ++ [.spawnWorker]

/-- C9: a batch in which every changed path matches an ignore pattern causes
zero worker spawns (and no process actions at all); a batch with at least
one non-ignored path causes exactly one spawn, preceded — when the worker is
still running — by the terminate / wait-with-timeout / kill-on-timeout
sequence. -/
theorem watch_iteration_restarts (workerRunning waitTimedOut : Bool)
    (changes : List (Nat × String)) :
    ((∀ c ∈ changes, should_ignore_change c.2 = true) →
      watch_iteration workerRunning waitTimedOut changes = []) ∧
    ((∃ c ∈ changes, should_ignore_change c.2 = false) →
      (watch_iteration workerRunning waitTimedOut changes).count .spawnWorker
        = 1 ∧
      (workerRunning = true →
        watch_iteration workerRunning waitTimedOut changes =
          [.terminate, .waitTimeout 3] ++
            (if waitTimedOut then [.kill] else []) ++ [.spawnWorker])) := by
  constructor
  · intro hall
    have hemp : filtered_changes changes = [] := by
      simp only [filtered_changes, List.filter_eq_nil_iff]
      intro c hc
      simp [hall c hc]
    simp [watch_iteration, hemp]
  · rintro ⟨c, hc, hni⟩
    have hmem : c ∈ filtered_changes changes := by
      simp [filtered_changes, List.mem_filter, hc, hni]
    have hne : (filtered_changes changes).isEmpty = false := by
      cases hfc : filtered_changes changes with
      | nil => rw [hfc] at hmem; exact absurd hmem (List.not_mem_nil c)
      | cons x xs => rfl
    constructor
    · cases workerRunning <;> cases waitTimedOut <;>
        simp [watch_iteration, hne, stop_worker, List.count_append]
    · intro hr
      subst hr
      simp [watch_iteration, hne, stop_worker, List.append_assoc]

/-- Witness for `watch_iteration_restarts`: an all-ignored batch produces no
actions; a batch touching `app/models.py` with a live worker and no wait
timeout produces terminate, wait, spawn. -/
theorem watch_iteration_restarts_witness :
    watch_iteration true false [(1, "app/db.sqlite3-wal")] = [] ∧
    (watch_iteration true false [(1, "app/models.py")]).count .spawnWorker
      = 1 := by
  constructor
  · exact (watch_iteration_restarts true false [(1, "app/db.sqlite3-wal")]).1
      (by decide)
  · exact ((watch_iteration_restarts true false [(1, "app/models.py")]).2
      (by decide)).1

/-! ## Singleton manager getters (`get_db_manager`, db/manager.py lines
141-149; `get_migration_manager`, db/migrations.py lines 159-167) -/

/-- A `DatabaseManager` as far as the getter is concerned: identified by the
`app_dir` argument it was constructed with (`None` means "discover"). -/
structure DatabaseManager where
  ctor_app_dir : Option String
deriving DecidableEq

/-- A `MigrationManager`, likewise identified by its construction
argument. -/
structure MigrationManager where
  ctor_app_dir : Option String
deriving DecidableEq

/-- `get_db_manager` (manager.py lines 143-147) acting on the module-global
`_db_manager` cell: construct on first use, otherwise return the cached
instance unchanged. -/
def get_db_manager (state : Option DatabaseManager) (app_dir : Option String) :
    DatabaseManager × Option DatabaseManager :=
  match state with
  | none => (⟨app_dir⟩, some ⟨app_dir⟩)
  | some m => (m, some m)

/-- `get_migration_manager` (migrations.py lines 161-165) acting on the
module-global `_migration_manager` cell. -/
def get_migration_manager (state : Option MigrationManager)
    (app_dir : Option String) : MigrationManager × Option MigrationManager :=
  match state with
  | none => (⟨app_dir⟩, some ⟨app_dir⟩)
  | some m => (m, some m)

/-- A sequence of `get_db_manager` calls threaded through the global cell,
returning every call's result. -/
def run_db_manager_calls :
    Option DatabaseManager → List (Option String) →
      List DatabaseManager × Option DatabaseManager
  | st, [] => ([], st)
  | st, a :: rest =>
    let r := get_db_manager st a
    let t := run_db_manager_calls r.2 rest
    (r.1 :: t.1, t.2)

/-- A sequence of `get_migration_manager` calls threaded through the global
cell. -/
def run_migration_manager_calls :
    Option MigrationManager → List (Option String) →
      List MigrationManager × Option MigrationManager
  | st, [] => ([], st)
  | st, a :: rest =>
    let r := get_migration_manager st a
    let t := run_migration_manager_calls r.2 rest
    (r.1 :: t.1, t.2)

/-- From a populated cell, every call returns the cached manager and leaves
the cell unchanged. -/
theorem run_db_manager_calls_cached (m : DatabaseManager)
    (args : List (Option String)) :
    run_db_manager_calls (some m) args =
      (List.replicate args.length m, some m) := by
  induction args with
  | nil => rfl
  | cons a rest ih =>
    simp [run_db_manager_calls, get_db_manager, ih, List.replicate_succ]

/-- From a populated cell, every `get_migration_manager` call returns the
cached manager and leaves the cell unchanged. -/
theorem run_migration_manager_calls_cached (m : MigrationManager)
    (args : List (Option String)) :
    run_migration_manager_calls (some m) args =
      (List.replicate args.length m, some m) := by
  induction args with
  | nil => rfl
  | cons a rest ih =>
    simp [run_migration_manager_calls, get_migration_manager, ih,
      List.replicate_succ]

/-- C10: both getters are process-wide singletons — the first call
constructs the manager from its `app_dir` argument, and every call in any
subsequent sequence returns that same instance whatever `app_dir` values are
passed later. -/
theorem manager_singleton_invariant :
    (∀ a : Option String, get_db_manager none a = (⟨a⟩, some ⟨a⟩)) ∧
    (∀ (m : DatabaseManager) (a : Option String),
      get_db_manager (some m) a = (m, some m)) ∧
    (∀ (a : Option String) (rest : List (Option String)),
      (run_db_manager_calls none (a :: rest)).1 =
        List.replicate (rest.length + 1) ⟨a⟩) ∧
    (∀ a : Option String, get_migration_manager none a = (⟨a⟩, some ⟨a⟩)) ∧
    (∀ (m : MigrationManager) (a : Option String),
      get_migration_manager (some m) a = (m, some m)) ∧
    (∀ (a : Option String) (rest : List (Option String)),
      (run_migration_manager_calls none (a :: rest)).1 =
        List.replicate (rest.length + 1) ⟨a⟩) := by
  refine ⟨fun a => rfl, fun m a => rfl, ?_, fun a => rfl, fun m a => rfl, ?_⟩
  · intro a rest
    simp [run_db_manager_calls, get_db_manager,
      run_db_manager_calls_cached, List.replicate_succ]
  · intro a rest
    simp [run_migration_manager_calls, get_migration_manager,
      run_migration_manager_calls_cached, List.replicate_succ]

end Onramp
